import Mathlib

/-!
Verification development for the chat-service backend
(src/backend/services/chat-service/src): a shallow embedding of the
Postgres tables (db.js, migrations/001, migrations/002), the Express route
handlers (routes.js), the event/publish layer (events.js, redisPubSub.js)
and the WebSocket session bookkeeping (websocket.js), together with
theorems about pagination, personal-chat membership, block semantics,
error recovery on the emit path, pub/sub loop prevention and subscription
reference counting.
-/

namespace ChatApp

/-- A row of `chat_members` (migrations/001: PK (chat_id, user_id),
`role` default member, `blocked` default false; the blocked column is
added by migrations/002 on older databases). -/
structure Membership where
  chatId : String
  userId : String
  role : String := "member"
  blocked : Bool := false
deriving Repr, DecidableEq

/-- A row of `chats` (id PK, type, optional name). The creation timestamp
is not needed by any claim and is omitted. -/
structure Chat where
  id : String
  type : String
  name : Option String := none
deriving Repr, DecidableEq

/-- A row of `messages`. `createdAt` models the server-assigned
`created_at TIMESTAMP DEFAULT CURRENT_TIMESTAMP` as a natural number;
the SQL comparisons `<` and `ORDER BY created_at` become Nat comparisons. -/
structure Message where
  id : String
  chatId : String
  senderId : String
  type : String
  content : String
  mediaUrl : Option String := none
  createdAt : Nat
deriving Repr, DecidableEq

/-- The relational store of the chat service. Lists keep rows in
insertion order, which is the order an unordered Postgres scan is
modelled to return them in. -/
structure DB where
  chats : List Chat
  chatMembers : List Membership
  messages : List Message
deriving Repr, DecidableEq

/-- The empty database. -/
def dbInit : DB := ⟨[], [], []⟩

/-- Responses of the route handlers; `err` carries the HTTP status code
and the body message string used in routes.js. -/
inductive Resp where
  | okChatId (id : String)
  | okMessage (m : Message)
  | okMessages (msgs : List Message)
  | okSuccess
  | err (status : Nat) (body : String)
deriving Repr, DecidableEq

/-- Rows of `chat_members` for one chat:
SELECT * FROM chat_members WHERE chat_id = cid. -/
def membersOf (db : DB) (cid : String) : List Membership :=
  db.chatMembers.filter (fun m => m.chatId == cid)

/-- The membership row the routes read as `memberCheck.rows[0]`:
SELECT * FROM chat_members WHERE chat_id = cid AND user_id = uid,
first row of the scan. -/
def findMember (db : DB) (cid uid : String) : Option Membership :=
  (db.chatMembers.filter (fun m => m.chatId == cid && m.userId == uid)).head?

/-- EXISTS form of the membership lookup (used by the personal-chat
duplicate query joins). -/
def isMemberOf (db : DB) (cid uid : String) : Bool :=
  db.chatMembers.any (fun m => m.chatId == cid && m.userId == uid)

/-! ## GET /api/chats/:chatId/messages (routes.js 196-260) -/

/-- The `limitNum` variable of the handler:
`Math.min(parseInt(limit) || 50, 100)` — the requested limit, with 0 or an
absent parameter falling back to 50, clamped to at most 100. It is used
only for the cache key, not for the SQL query. -/
def limitNumOf (limit : Option Nat) : Nat :=
  min (match limit with
       | none => 50
       | some n => if n = 0 then 50 else n) 100

/-- The value pushed as the SQL LIMIT parameter: `parseInt(limit)` with
the destructuring default of 50 when the parameter is absent. Note that
this is the raw parsed limit, not the clamped `limitNum`. -/
def sqlLimitOf (limit : Option Nat) : Nat := limit.getD 50

/-- Descending order on `created_at`, the sort key of
`ORDER BY m.created_at DESC` (no tiebreak column). -/
def createdDesc (a b : Message) : Prop := b.createdAt ≤ a.createdAt

instance : DecidableRel createdDesc := fun _ _ => Nat.decLe _ _

instance : IsTotal Message createdDesc :=
  ⟨fun a b => Nat.le_total b.createdAt a.createdAt⟩

instance : IsTrans Message createdDesc :=
  ⟨fun _ _ _ hab hbc => Nat.le_trans hbc hab⟩

/-- The rows of the message query:
WHERE m.chat_id = cid [AND m.created_at < before]
ORDER BY m.created_at DESC LIMIT lim, followed by the handler final
`messages.reverse()`. The ORDER BY names no tiebreak, so rows with equal
`created_at` keep their underlying scan order (a stable sort of the
insertion-ordered table). -/
def messagesQuery (db : DB) (cid : String) (before : Option Nat) (lim : Nat) :
    List Message :=
  (((db.messages.filter (fun m =>
      m.chatId == cid &&
      (match before with
       | none => true
       | some b => decide (m.createdAt < b)))).insertionSort createdDesc).take lim).reverse

/-- GET /api/chats/:chatId/messages: member check (403 otherwise), then
the paginated query. The cache lookup keyed by `limitNum` is modelled as
a miss (cache.js returns null when disconnected and never throws); the
SQL LIMIT receives the raw `parseInt(limit)`, exactly as the handler
pushes it. -/
def getMessagesRoute (db : DB) (cid uid : String)
    (limit : Option Nat) (before : Option Nat) : Resp :=
  match findMember db cid uid with
  | none => .err 403 "Not a member of this chat"
  | some _ => .okMessages (messagesQuery db cid before (sqlLimitOf limit))

/-- Length of a message-list response (0 for anything else). -/
def respLen : Resp → Nat
  | .okMessages l => l.length
  | _ => 0

/-- Lexicographic comparison of character lists by code point, used to
state identifier order. -/
def charListLe : List Char → List Char → Bool
  | [], _ => true
  | _ :: _, [] => false
  | a :: as, b :: bs =>
    if a.toNat < b.toNat then true
    else if b.toNat < a.toNat then false
    else charListLe as bs

/-- The ordering the specification claims for pagination results:
ascending by creation timestamp with the identifier as lexicographic
tiebreak. -/
def timeThenIdLe (a b : Message) : Prop :=
  a.createdAt < b.createdAt ∨
    (a.createdAt = b.createdAt ∧ charListLe a.id.data b.id.data = true)

instance : DecidableRel timeThenIdLe := fun a b => by
  unfold timeThenIdLe; infer_instance

/-! ## Store writes (db.js schema constraints; no transactions are used by
routes.js, each statement commits on its own) -/

/-- INSERT INTO chats: fails (unique violation on the id PK) when a chat
with the same id exists, otherwise appends the row. -/
def insertChat (db : DB) (c : Chat) : Option DB :=
  if db.chats.any (fun x => x.id == c.id) then none
  else some { db with chats := db.chats ++ [c] }

/-- INSERT INTO chat_members: fails on the (chat_id, user_id) primary
key when the pair exists, otherwise appends the row. -/
def insertChatMember (db : DB) (m : Membership) : Option DB :=
  if db.chatMembers.any (fun x => x.chatId == m.chatId && x.userId == m.userId) then none
  else some { db with chatMembers := db.chatMembers ++ [m] }

/-- INSERT INTO messages: fails on the id PK when the id exists,
otherwise appends the row. -/
def insertMessage (db : DB) (m : Message) : Option DB :=
  if db.messages.any (fun x => x.id == m.id) then none
  else some { db with messages := db.messages ++ [m] }

/-- UPDATE chat_members SET blocked = b WHERE chat_id = cid AND
user_id = uid. -/
def setBlocked (db : DB) (cid uid : String) (b : Bool) : DB :=
  { db with chatMembers := db.chatMembers.map (fun m =>
      if m.chatId == cid && m.userId == uid then { m with blocked := b } else m) }

/-! ## Emit path (events.js publishEvent, websocket.js broadcastToUser,
redisPubSub.js publishToUser). All of these swallow their errors with
try/catch and log; none propagates a failure to the route handler. The
Bool flags model whether the broker channel is set, whether the broker
publish succeeds, whether Redis pub/sub is initialized, and whether the
Redis publish succeeds. Each function returns the log line it produces. -/

/-- events.js publishEvent: publishes when the AMQP channel is set and
the publish call does not throw; an exception is caught and logged; a
missing channel produces a warning. It never raises to its caller. -/
def publishEvent (busConnected busOk : Bool) (eventType : String) : String :=
  if busConnected then
    if busOk then "published " ++ eventType
    else "error publishing event " ++ eventType
  else "message broker not connected " ++ eventType

/-- websocket.js broadcastToUser: the local fan-out catches per-socket
send errors, and the Redis publish path catches its own errors both in
redisPubSub.publishToUser and in the attached rejection handler. It never
raises to its caller. -/
def broadcastToUser (psAvailable psOk : Bool) (uid eventType : String) : String :=
  if psAvailable then
    if psOk then "broadcast+redis " ++ eventType ++ " " ++ uid
    else "broadcast+redis-error-logged " ++ eventType ++ " " ++ uid
  else "broadcast-local-only " ++ eventType ++ " " ++ uid

/-! ## POST /api/chats/personal (routes.js 136-171) -/

/-- The duplicate-personal-chat lookup (routes.js 142-150, also 290-298):
first chat, in table order, of type personal that has a membership row
for u1 and a membership row for u2. The two joins are independent, so
when u1 = u2 both may bind to the same membership row. -/
def findExistingPersonal (db : DB) (u1 u2 : String) : Option String :=
  (db.chats.find? (fun c =>
      c.type == "personal" && isMemberOf db c.id u1 && isMemberOf db c.id u2)).map Chat.id

/-- POST /api/chats/personal: return the existing chat id when the
duplicate lookup finds one; otherwise insert the chat and the two
membership rows one statement at a time. A failing insert is caught by
the handler and answered with 500, leaving the earlier inserts in place
(there is no transaction). `newChatId` stands for the generated UUID. -/
def createPersonalChat (db : DB) (currentUserId otherUserId newChatId : String) :
    DB × Resp :=
  match findExistingPersonal db currentUserId otherUserId with
  | some cid => (db, .okChatId cid)
  | none =>
    match insertChat db ⟨newChatId, "personal", none⟩ with
    | none => (db, .err 500 "Failed to create chat")
    | some db1 =>
      match insertChatMember db1 ⟨newChatId, currentUserId, "member", false⟩ with
      | none => (db1, .err 500 "Failed to create chat")
      | some db2 =>
        match insertChatMember db2 ⟨newChatId, otherUserId, "member", false⟩ with
        | none => (db2, .err 500 "Failed to create chat")
        | some db3 => (db3, .okChatId newChatId)

/-! ## POST /api/chats/:chatId/block and /unblock (routes.js 512-577) -/

/-- POST /api/chats/:chatId/block: member check (403), require another
member in the chat (400 otherwise), then set the callers own blocked
flag to true. -/
def blockRoute (db : DB) (cid uid : String) : DB × Resp :=
  match findMember db cid uid with
  | none => (db, .err 403 "Not a member of this chat")
  | some _ =>
    if (db.chatMembers.filter (fun m => m.chatId == cid && m.userId != uid)).isEmpty then
      (db, .err 400 "Cannot block in this chat")
    else (setBlocked db cid uid true, .okSuccess)

/-- POST /api/chats/:chatId/unblock: member check (403), then set the
callers blocked flag to false. -/
def unblockRoute (db : DB) (cid uid : String) : DB × Resp :=
  match findMember db cid uid with
  | none => (db, .err 403 "Not a member of this chat")
  | some _ => (setBlocked db cid uid false, .okSuccess)

/-! ## POST /api/chats/:chatId/messages (routes.js 387-486) -/

/-- POST /api/chats/:chatId/messages: member check (403 NotAMember),
blocked check on the senders own membership row (403 Blocked), then the
two separate writes: UPDATE blocked=false and INSERT of the message.
`insertOk` models store availability at the INSERT statement; a failed
insert is caught and answered 500, with the UPDATE already applied.
After the insert the handler re-reads the message, invalidates the cache
(a no-op that never throws), broadcasts MESSAGE_SENT and a cleared
TYPING_INDICATOR to every member except the sender, publishes
message.sent to the broker, and returns the persisted message. The third
component collects the emit-path log lines. -/
def sendToChat (db : DB) (cid uid : String) (mtype content : String)
    (mediaUrl : Option String) (newMessageId : String) (now : Nat)
    (insertOk busConnected busOk psAvailable psOk : Bool) :
    DB × Resp × List String :=
  match findMember db cid uid with
  | none => (db, .err 403 "Not a member of this chat", [])
  | some m0 =>
    if m0.blocked then (db, .err 403 "You are blocked in this chat", [])
    else
      let db1 := setBlocked db cid uid false
      let msg : Message := ⟨newMessageId, cid, uid, mtype, content, mediaUrl, now⟩
      match (if insertOk then insertMessage db1 msg else none) with
      | none => (db1, .err 500 "Failed to send message", [])
      | some db2 =>
        let recips := ((db2.chatMembers.filter (fun m => m.chatId == cid)).map
            Membership.userId).filter (fun u => u != uid)
        (db2, .okMessage msg,
          recips.map (fun u => broadcastToUser psAvailable psOk u "MESSAGE_SENT")
            ++ recips.map (fun u => broadcastToUser psAvailable psOk u "TYPING_INDICATOR")
            ++ [publishEvent busConnected busOk "message.sent"])

/-! ## POST /api/users/:userId/messages (routes.js 263-384) -/

/-- The blocked-by-recipient check (routes.js 274-287): first membership
row, in table order, belonging to the recipient in a personal chat that
the sender is also a member of; the guard fires when such a row exists
and its blocked flag is set. -/
def recipientBlockCheck (db : DB) (senderId recipientId : String) : Bool :=
  match (db.chatMembers.filter (fun cm =>
      cm.userId == recipientId
      && db.chats.any (fun c => c.id == cm.chatId && c.type == "personal")
      && db.chatMembers.any (fun x => x.chatId == cm.chatId && x.userId == senderId))).head? with
  | some b => b.blocked
  | none => false

/-- Commit-and-emit tail shared by the found and created branches of the
send-to-user handler (routes.js 313-379): UPDATE blocked=false for the
sender, INSERT of the message (insertOk models store availability; a
failure is caught and answered 500 with the UPDATE already applied),
then MESSAGE_SENT and cleared TYPING_INDICATOR broadcasts to the
recipient only, the message.sent broker publish, and the persisted
message as response. -/
def sendToUserCommit (db : DB) (cid senderId recipientId : String)
    (mtype content : String) (mediaUrl : Option String)
    (newMessageId : String) (now : Nat)
    (insertOk busConnected busOk psAvailable psOk : Bool) :
    DB × Resp × List String :=
  let db1 := setBlocked db cid senderId false
  let msg : Message := ⟨newMessageId, cid, senderId, mtype, content, mediaUrl, now⟩
  match (if insertOk then insertMessage db1 msg else none) with
  | none => (db1, .err 500 "Failed to send message", [])
  | some db2 =>
    (db2, .okMessage msg,
      [broadcastToUser psAvailable psOk recipientId "MESSAGE_SENT",
       broadcastToUser psAvailable psOk recipientId "TYPING_INDICATOR",
       publishEvent busConnected busOk "message.sent"])

/-- POST /api/users/:userId/messages: reject a self send with
400 "Cannot send message to yourself", reject when the recipient has
blocked the sender (403), then find or create the personal chat (the
creation inserts are the same unprotected sequence as in
createPersonalChat) and run the commit-and-emit tail. -/
def sendToUser (db : DB) (senderId recipientId : String)
    (mtype content : String) (mediaUrl : Option String)
    (newChatId newMessageId : String) (now : Nat)
    (insertOk busConnected busOk psAvailable psOk : Bool) :
    DB × Resp × List String :=
  if senderId == recipientId then
    (db, .err 400 "Cannot send message to yourself", [])
  else if recipientBlockCheck db senderId recipientId then
    (db, .err 403 "You have been blocked by this user", [])
  else
    match findExistingPersonal db senderId recipientId with
    | some cid =>
      sendToUserCommit db cid senderId recipientId mtype content mediaUrl
        newMessageId now insertOk busConnected busOk psAvailable psOk
    | none =>
      match insertChat db ⟨newChatId, "personal", none⟩ with
      | none => (db, .err 500 "Failed to send message", [])
      | some db1 =>
        match insertChatMember db1 ⟨newChatId, senderId, "member", false⟩ with
        | none => (db1, .err 500 "Failed to send message", [])
        | some db2 =>
          match insertChatMember db2 ⟨newChatId, recipientId, "member", false⟩ with
          | none => (db2, .err 500 "Failed to send message", [])
          | some db3 =>
            sendToUserCommit db3 newChatId senderId recipientId mtype content mediaUrl
              newMessageId now insertOk busConnected busOk psAvailable psOk

/-! ## WebSocket session hub (websocket.js)

connectedClients is a JS Map from userId to a Set of sockets, modelled
as an association list in insertion order with socket handles as
naturals; userSubscriptions is a JS Set of userIds, modelled as a list.
Pub/sub availability and subscribe success are assumed throughout
(isPubSubAvailable returns true and subscribeToUser does not reject),
matching the operating mode the claim describes. -/

/-- JS Map.get on the client registry. -/
def getEntry : List (String × List Nat) → String → Option (List Nat)
  | [], _ => none
  | p :: ps, u => if p.1 == u then some p.2 else getEntry ps u

/-- JS Map.set: replace the entry when the key is present, else append. -/
def setEntry : List (String × List Nat) → String → List Nat → List (String × List Nat)
  | [], u, s => [(u, s)]
  | p :: ps, u, s => if p.1 == u then (p.1, s) :: ps else p :: setEntry ps u s

/-- JS Map.delete: drop every entry with the key. -/
def delEntry (cl : List (String × List Nat)) (u : String) : List (String × List Nat) :=
  cl.filter (fun p => p.1 != u)

/-- JS Map.has. -/
def hasKey (cl : List (String × List Nat)) (u : String) : Bool :=
  cl.any (fun p => p.1 == u)

/-- The per-node hub state: the client registry and the set of user
channels this node is subscribed to. -/
structure HubState where
  clients : List (String × List Nat)
  subs : List String
deriving Repr, DecidableEq

/-- A node starts with no sessions and no subscriptions. -/
def HubState.init : HubState := ⟨[], []⟩

/-- Registry effect of the connection handler: ensure the map entry for
the user exists, then add the socket to the user set (Set.add: a socket
already present is not duplicated). -/
def connectClients (cl : List (String × List Nat)) (u : String) (ws : Nat) :
    List (String × List Nat) :=
  let cl0 := if hasKey cl u then cl else setEntry cl u []
  let s := (getEntry cl0 u).getD []
  setEntry cl0 u (if ws ∈ s then s else s ++ [ws])

/-- websocket.js connection handler (16-43): register the socket, and
when the node holds no subscription for the user yet, record and
establish one. -/
def wsConnect (st : HubState) (u : String) (ws : Nat) : HubState :=
  { clients := connectClients st.clients u ws,
    subs := if u ∈ st.subs then st.subs else u :: st.subs }

/-- websocket.js close handler (62-82): remove the socket from the user
set; when the set becomes empty, drop the registry entry, the
subscription bookkeeping and the Redis subscription. A close for a user
without an entry is a no-op (optional chaining). -/
def wsClose (st : HubState) (u : String) (ws : Nat) : HubState :=
  match getEntry st.clients u with
  | none => st
  | some s =>
    if (s.erase ws).isEmpty then
      { clients := delEntry (setEntry st.clients u (s.erase ws)) u,
        subs := st.subs.erase u }
    else { clients := setEntry st.clients u (s.erase ws), subs := st.subs }

/-- Session lifecycle events on one node. -/
inductive HubOp where
  | connect (u : String) (ws : Nat)
  | close (u : String) (ws : Nat)
deriving Repr, DecidableEq

/-- Effect of one lifecycle event. -/
def hubStep (st : HubState) : HubOp → HubState
  | .connect u ws => wsConnect st u ws
  | .close u ws => wsClose st u ws

/-- Run a sequence of lifecycle events from the empty node state. -/
def runHub (ops : List HubOp) : HubState := ops.foldl hubStep HubState.init

/-- The live sessions a node holds for a user. -/
def sessionsOf (st : HubState) (u : String) : List Nat :=
  (getEntry st.clients u).getD []

/-! ## Redis pub/sub payloads (redisPubSub.js) -/

/-- A payload on a `ws:user:` channel: the event body together with the
mandatory `instanceId` of the publishing node. -/
structure PubSubPayload where
  body : String
  instanceId : String
deriving Repr, DecidableEq

/-- redisPubSub.js publishToUser (299-318): the published message is the
event extended with the publishing nodes own instanceId. -/
def publishToUserPayload (self body : String) : PubSubPayload :=
  ⟨body, self⟩

/-- redisPubSub.js subscribeToUser callback (269-285): parse the payload,
drop it when its instanceId equals the receiving nodes own instanceId,
otherwise hand the event to the stored channel handler (when one is
registered). Returns the body delivered to the handler, if any. -/
def subscribeCallbackDelivery (self : String) (handlerRegistered : Bool)
    (msg : PubSubPayload) : Option String :=
  if msg.instanceId ≠ self then
    (if handlerRegistered then some msg.body else none)
  else none

/-! ## Concrete stores used as inputs for the boundary claims -/

/-- A chat with two members and 101 messages at distinct timestamps. -/
def dbC1 : DB :=
  { chats := [⟨"c", "personal", none⟩],
    chatMembers := [⟨"c", "u", "member", false⟩, ⟨"c", "v", "member", false⟩],
    messages := (List.range 101).map
      (fun i => ⟨"m" ++ Nat.repr i, "c", "u", "text", "hi", none, i⟩) }

/-- A chat with two messages inserted in id order a, b sharing one
creation timestamp. -/
def dbC2 : DB :=
  { chats := [⟨"c", "personal", none⟩],
    chatMembers := [⟨"c", "u", "member", false⟩, ⟨"c", "v", "member", false⟩],
    messages := [⟨"a", "c", "u", "text", "x", none, 5⟩,
                 ⟨"b", "c", "v", "text", "y", none, 5⟩] }

/-- A chat store where user u belongs to one well-formed personal chat. -/
def dbC10 : DB :=
  { chats := [⟨"c0", "personal", none⟩],
    chatMembers := [⟨"c0", "u", "member", false⟩, ⟨"c0", "v", "member", false⟩],
    messages := [] }

/-- The personal-chat shape invariant of the specification: every
personal chat has exactly two membership rows and their user identifiers
are distinct. -/
def personalTwoDistinct (db : DB) : Prop :=
  ∀ c ∈ db.chats, c.type = "personal" →
    (membersOf db c.id).length = 2 ∧
    ((membersOf db c.id).map Membership.userId).Nodup

/-! ## Operation sequences over the store (for the personal-chat shape
invariant) -/

/-- The operations of the membership claim: personal-chat creation and
user-directed send, each carrying its generated identifiers and the
store-health flag of the message insert. -/
inductive StoreOp where
  | createPersonal (cur other newChatId : String)
  | sendUser (sender recipient mtype content : String) (mediaUrl : Option String)
      (newChatId newMessageId : String) (now : Nat) (insertOk : Bool)
deriving Repr, DecidableEq

/-- Effect of one operation on the store (responses discarded; the emit
flags of the send are irrelevant to the store). -/
def applyOp (db : DB) : StoreOp → DB
  | .createPersonal cur other nc => (createPersonalChat db cur other nc).1
  | .sendUser s r mt ct mu nc nm now iOk =>
      (sendToUser db s r mt ct mu nc nm now iOk true true true true).1

/-- Run a sequence of operations from a store. -/
def runOps (db : DB) (ops : List StoreOp) : DB := ops.foldl applyOp db

/-- Well-formed operations: personal-chat creation names two distinct
users (the send handler enforces its own self-send guard). -/
def StoreOp.wf : StoreOp → Prop
  | .createPersonal cur other _ => cur ≠ other
  | .sendUser _ _ _ _ _ _ _ _ _ => True

instance : DecidablePred StoreOp.wf := fun op =>
  match op with
  | .createPersonal cur other _ => inferInstanceAs (Decidable (cur ≠ other))
  | .sendUser _ _ _ _ _ _ _ _ _ => inferInstanceAs (Decidable True)

/-- The store invariant: chat ids are unique (chats PK), every
membership references an existing chat (FK chat_id), and every personal
chat has exactly two memberships of distinct users. -/
structure DBInv (db : DB) : Prop where
  chatsNodup : (db.chats.map Chat.id).Nodup
  membersFK : ∀ m ∈ db.chatMembers, m.chatId ∈ db.chats.map Chat.id
  personalOK : personalTwoDistinct db

/-- A personal chat between A and B in which A has blocked B (the
blocked flag sits on the membership row of A). -/
def dbBlocked : DB :=
  { chats := [⟨"c", "personal", none⟩],
    chatMembers := [⟨"c", "A", "member", true⟩, ⟨"c", "B", "member", false⟩],
    messages := [] }

/-! ## Hub subscription bookkeeping lemmas -/

/-- The hub invariant: the subscription set has no duplicates (a JS
Set), every registry entry holds at least one session, and a
subscription is held exactly for the users with a registry entry. -/
structure HubInv (st : HubState) : Prop where
  subsNodup : st.subs.Nodup
  entriesNonempty : ∀ v s, getEntry st.clients v = some s → s ≠ []
  subsIff : ∀ v, v ∈ st.subs ↔ (getEntry st.clients v).isSome = true

/-! ## Basic query lemmas -/

theorem isMemberOf_iff {db : DB} {cid uid : String} :
    isMemberOf db cid uid = true ↔
      ∃ m ∈ db.chatMembers, m.chatId = cid ∧ m.userId = uid := by
  simp [isMemberOf, List.any_eq_true]

theorem mem_membersOf {db : DB} {cid : String} {m : Membership} :
    m ∈ membersOf db cid ↔ m ∈ db.chatMembers ∧ m.chatId = cid := by
  simp [membersOf, List.mem_filter]

/-! ## Lemmas about the blocked-flag update and the message insert -/

theorem head_filter_map_blocked (l : List Membership) (cid uid : String) (b : Bool) :
    ((l.map (fun m => if m.chatId == cid && m.userId == uid
        then { m with blocked := b } else m)).filter
          (fun m => m.chatId == cid && m.userId == uid)).head?
      = ((l.filter (fun m => m.chatId == cid && m.userId == uid)).head?).map
          (fun m => { m with blocked := b }) := by
  rw [List.filter_map]
  have hcong : ∀ x ∈ l,
      ((fun m : Membership => m.chatId == cid && m.userId == uid) ∘
        (fun m : Membership => if m.chatId == cid && m.userId == uid
          then { m with blocked := b } else m)) x
        = (fun m : Membership => m.chatId == cid && m.userId == uid) x := by
    intro x _
    by_cases hx : (x.chatId == cid && x.userId == uid) = true
    · rw [Function.comp_apply, if_pos hx]
    · rw [Function.comp_apply, if_neg hx]
  rw [List.filter_congr hcong]
  have hmapc : ∀ x ∈ l.filter (fun m : Membership => m.chatId == cid && m.userId == uid),
      (fun m : Membership => if m.chatId == cid && m.userId == uid
        then { m with blocked := b } else m) x
        = (fun m : Membership => { m with blocked := b }) x := by
    intro x hx
    dsimp only
    rw [if_pos (List.of_mem_filter hx)]
  rw [List.map_congr_left hmapc]
  exact List.head?_map _ _

theorem findMember_setBlocked_self (db : DB) (cid uid : String) (b : Bool) :
    findMember (setBlocked db cid uid b) cid uid
      = (findMember db cid uid).map (fun m => { m with blocked := b }) :=
  head_filter_map_blocked db.chatMembers cid uid b

theorem findMember_isSome_of_isMemberOf {db : DB} {cid uid : String}
    (h : isMemberOf db cid uid = true) : (findMember db cid uid).isSome := by
  unfold isMemberOf at h
  unfold findMember
  obtain ⟨x, hx, hpx⟩ := List.any_eq_true.mp h
  have : x ∈ db.chatMembers.filter (fun m => m.chatId == cid && m.userId == uid) :=
    List.mem_filter.mpr ⟨hx, hpx⟩
  cases hl : db.chatMembers.filter (fun m => m.chatId == cid && m.userId == uid) with
  | nil => rw [hl] at this; cases this
  | cons a t => simp [List.head?]

theorem insertMessage_some {db db2 : DB} {m : Message}
    (h : insertMessage db m = some db2) :
    db2 = { db with messages := db.messages ++ [m] } := by
  unfold insertMessage at h
  split at h
  · exact absurd h (by simp)
  · exact (Option.some_inj.mp h).symm

theorem insertMessage_fresh {db : DB} {m : Message}
    (h : ∀ x ∈ db.messages, x.id ≠ m.id) :
    insertMessage db m = some { db with messages := db.messages ++ [m] } := by
  unfold insertMessage
  rw [if_neg]
  simp only [List.any_eq_true, beq_iff_eq, not_exists, not_and]
  intro x hx
  exact h x hx

/-- When the member and blocked checks pass, the chat_members rows of the
post-state are those of the blocked=false update, whether or not the
message insert succeeds. -/
theorem sendToChat_chatMembers (db : DB) (cid uid mtype content : String)
    (mediaUrl : Option String) (nm : String) (now : Nat)
    (iOk bC bO pA pO : Bool) (m : Membership)
    (hm : findMember db cid uid = some m) (hnb : m.blocked = false) :
    (sendToChat db cid uid mtype content mediaUrl nm now iOk bC bO pA pO).1.chatMembers
      = (setBlocked db cid uid false).chatMembers := by
  simp only [sendToChat, hm, hnb, Bool.false_eq_true, if_false]
  cases iOk with
  | false => rfl
  | true =>
    simp only [if_true]
    rcases hins : insertMessage (setBlocked db cid uid false)
        ⟨nm, cid, uid, mtype, content, mediaUrl, now⟩ with _ | db2
    · rfl
    · rw [insertMessage_some hins]

/-- When the member and blocked checks pass, the insert succeeds on a
fresh id and the handler returns the persisted message; the post-state
appends the message and keeps the blocked=false update. -/
theorem sendToChat_ok (db : DB) (cid uid mtype content : String)
    (mediaUrl : Option String) (nm : String) (now : Nat)
    (bC bO pA pO : Bool) (m : Membership)
    (hm : findMember db cid uid = some m) (hnb : m.blocked = false)
    (hfresh : ∀ x ∈ db.messages, x.id ≠ nm) :
    (sendToChat db cid uid mtype content mediaUrl nm now true bC bO pA pO).2.1
        = Resp.okMessage ⟨nm, cid, uid, mtype, content, mediaUrl, now⟩
    ∧ (sendToChat db cid uid mtype content mediaUrl nm now true bC bO pA pO).1
        = { chats := db.chats,
            chatMembers := (setBlocked db cid uid false).chatMembers,
            messages := db.messages ++ [⟨nm, cid, uid, mtype, content, mediaUrl, now⟩] } := by
  have hins := @insertMessage_fresh (setBlocked db cid uid false)
    ⟨nm, cid, uid, mtype, content, mediaUrl, now⟩ hfresh
  simp only [sendToChat, hm, hnb, Bool.false_eq_true, if_false, if_true, hins]
  exact ⟨trivial, rfl⟩

/-- The commit tail of the send-to-user handler leaves the chat_members
rows of the blocked=false update, whether or not the insert succeeds. -/
theorem sendToUserCommit_chatMembers (db : DB) (cid s r mtype content : String)
    (mediaUrl : Option String) (nm : String) (now : Nat)
    (iOk bC bO pA pO : Bool) :
    (sendToUserCommit db cid s r mtype content mediaUrl nm now iOk bC bO pA pO).1.chatMembers
      = (setBlocked db cid s false).chatMembers := by
  unfold sendToUserCommit
  cases iOk with
  | false => rfl
  | true =>
    simp only [if_true]
    rcases hins : insertMessage (setBlocked db cid s false)
        ⟨nm, cid, s, mtype, content, mediaUrl, now⟩ with _ | db2
    · rfl
    · rw [insertMessage_some hins]

/-- The commit tail succeeds on a fresh message id, returning the
persisted message and appending it to the store. -/
theorem sendToUserCommit_ok (db : DB) (cid s r mtype content : String)
    (mediaUrl : Option String) (nm : String) (now : Nat) (bC bO pA pO : Bool)
    (hfresh : ∀ x ∈ db.messages, x.id ≠ nm) :
    (sendToUserCommit db cid s r mtype content mediaUrl nm now true bC bO pA pO).2.1
        = Resp.okMessage ⟨nm, cid, s, mtype, content, mediaUrl, now⟩
    ∧ (sendToUserCommit db cid s r mtype content mediaUrl nm now true bC bO pA pO).1
        = { chats := db.chats,
            chatMembers := (setBlocked db cid s false).chatMembers,
            messages := db.messages ++ [⟨nm, cid, s, mtype, content, mediaUrl, now⟩] } := by
  have hins := @insertMessage_fresh (setBlocked db cid s false)
    ⟨nm, cid, s, mtype, content, mediaUrl, now⟩ hfresh
  unfold sendToUserCommit
  simp only [if_true, hins]
  exact ⟨trivial, rfl⟩

/-- When the self-send and recipient-block guards pass and the duplicate
lookup finds the personal chat, the send-to-user handler is exactly its
commit tail on that chat. -/
theorem sendToUser_eq_commit (db : DB) (s r mtype content : String)
    (mediaUrl : Option String) (nc nm : String) (now : Nat)
    (iOk bC bO pA pO : Bool) (cid : String)
    (hsr : s ≠ r) (hrb : recipientBlockCheck db s r = false)
    (hex : findExistingPersonal db s r = some cid) :
    sendToUser db s r mtype content mediaUrl nc nm now iOk bC bO pA pO
      = sendToUserCommit db cid s r mtype content mediaUrl nm now iOk bC bO pA pO := by
  unfold sendToUser
  rw [beq_eq_false_iff_ne.mpr hsr, hrb, hex]
  simp

/-- A successful duplicate lookup yields a personal chat of which both
looked-up users are members. -/
theorem findExistingPersonal_spec {db : DB} {u1 u2 cid : String}
    (h : findExistingPersonal db u1 u2 = some cid) :
    isMemberOf db cid u1 = true ∧ isMemberOf db cid u2 = true ∧
    ∃ c ∈ db.chats, c.id = cid ∧ c.type = "personal" := by
  unfold findExistingPersonal at h
  obtain ⟨c, hc, hcid⟩ := Option.map_eq_some'.mp h
  have hp := List.find?_some hc
  simp only [Bool.and_eq_true, beq_iff_eq] at hp
  exact ⟨hcid ▸ hp.1.2, hcid ▸ hp.2,
    c, List.mem_of_find?_eq_some hc, hcid, hp.1.1⟩

/-! ## Theorems -/

/-- C1: the handler computes the clamped `limitNum` (at most 100,
default 50) but pushes the unclamped `parseInt(limit)` as the SQL LIMIT
parameter, so a request with limit 101 against a chat holding 101
messages returns all 101 of them, contradicting the clamp the code
itself announces in its `Max 100 messages per request` comment. -/
theorem getMessages_limit_not_clamped :
    limitNumOf (some 101) = 100 ∧
    respLen (getMessagesRoute dbC1 "c" "u" (some 101) none) = 101 ∧
    100 < respLen (getMessagesRoute dbC1 "c" "u" (some 101) none) := by
  refine ⟨rfl, by decide, by decide⟩

/-- C2 counterexample: with two messages of one chat sharing a creation
timestamp and stored in identifier order a then b, the paginated result
is b then a — the query orders by `created_at DESC` alone and the final
reverse puts equal-timestamp rows in reverse scan order, so the claimed
identifier tiebreak does not hold. -/
theorem messagesQuery_no_id_tiebreak :
    (messagesQuery dbC2 "c" none (sqlLimitOf none)).map Message.id = ["b", "a"] ∧
    ¬ (messagesQuery dbC2 "c" none (sqlLimitOf none)).Pairwise timeThenIdLe := by
  exact ⟨by decide, by decide⟩

/-- C2 amended: pagination results are in ascending order of creation
timestamp, but rows with identical `created_at` carry no identifier
tiebreak (their relative order is the reverse of the scan order). -/
theorem messagesQuery_sorted_by_createdAt (db : DB) (cid : String)
    (before : Option Nat) (lim : Nat) :
    (messagesQuery db cid before lim).Pairwise
      (fun a b => a.createdAt ≤ b.createdAt) := by
  unfold messagesQuery
  exact List.pairwise_reverse.mpr
    ((List.sorted_insertionSort createdDesc _).sublist (List.take_sublist _ _))

/-- C6 counterexample: a self send is answered with HTTP 400, not with
the claimed 403 Forbidden; no message is inserted. -/
theorem sendToUser_self_not_403 :
    (sendToUser dbInit "u" "u" "text" "hi" none "c1" "m1" 0 true true true true true).2.1
      = Resp.err 400 "Cannot send message to yourself" ∧
    (400 : Nat) ≠ 403 ∧
    (sendToUser dbInit "u" "u" "text" "hi" none "c1" "m1" 0 true true true true true).1
      = dbInit := by
  exact ⟨by decide, by decide, by decide⟩

/-- C6 amended: a self send fails with HTTP 400 Bad Request
(`Cannot send message to yourself`), leaves the store unchanged and
emits nothing. -/
theorem sendToUser_self_send (db : DB) (u : String)
    (mtype content : String) (mediaUrl : Option String)
    (newChatId newMessageId : String) (now : Nat)
    (insertOk busConnected busOk psAvailable psOk : Bool) :
    sendToUser db u u mtype content mediaUrl newChatId newMessageId now
        insertOk busConnected busOk psAvailable psOk
      = (db, Resp.err 400 "Cannot send message to yourself", []) := by
  simp [sendToUser]

/-- C8: every payload published by a node to a user channel carries that
nodes instanceId, and the subscription callback of the same node never
delivers such a payload to its handler, whether or not a handler is
registered. -/
theorem pubsub_no_self_redelivery (self body : String) (handlerRegistered : Bool) :
    (publishToUserPayload self body).instanceId = self ∧
    subscribeCallbackDelivery self handlerRegistered (publishToUserPayload self body)
      = none := by
  exact ⟨rfl, by simp [subscribeCallbackDelivery, publishToUserPayload]⟩

/-- C10: when a caller invokes the personal-chat creation with their own
identifier as the other user and already belongs to a personal chat, the
duplicate-lookup joins both bind to memberships of the caller alone, so
the handler returns the id of one of the existing personal chats
containing the caller — a chat whose other member is not the caller
(given the personal-chat shape invariant) — instead of failing or
creating a self chat; the store is unchanged. -/
theorem createPersonalChat_self_returns_existing (db : DB) (u newChatId : String)
    (h1 : ∃ c ∈ db.chats, c.type = "personal" ∧ isMemberOf db c.id u = true)
    (h2 : personalTwoDistinct db) :
    ∃ c ∈ db.chats, c.type = "personal" ∧ isMemberOf db c.id u = true ∧
      (∃ m ∈ db.chatMembers, m.chatId = c.id ∧ m.userId ≠ u) ∧
      createPersonalChat db u u newChatId = (db, Resp.okChatId c.id) := by
  obtain ⟨c, hc, hctype, hcmem⟩ := h1
  have hsome : (db.chats.find? (fun c =>
      c.type == "personal" && isMemberOf db c.id u && isMemberOf db c.id u)).isSome := by
    rw [List.find?_isSome]
    exact ⟨c, hc, by simp [hctype, hcmem]⟩
  obtain ⟨c₀, hfind⟩ := Option.isSome_iff_exists.mp hsome
  have hc₀mem : c₀ ∈ db.chats := List.mem_of_find?_eq_some hfind
  have hp := List.find?_some hfind
  simp only [Bool.and_eq_true, beq_iff_eq] at hp
  obtain ⟨⟨hc₀type, hc₀u⟩, -⟩ := hp
  refine ⟨c₀, hc₀mem, hc₀type, hc₀u, ?_, ?_⟩
  · -- the shape invariant provides a second, distinct member
    obtain ⟨hlen, hnodup⟩ := h2 c₀ hc₀mem hc₀type
    obtain ⟨m, hmmem, hmcid, hmuid⟩ := isMemberOf_iff.mp hc₀u
    have hmf : m ∈ membersOf db c₀.id := mem_membersOf.mpr ⟨hmmem, hmcid⟩
    obtain ⟨m1, m2, hl⟩ := List.length_eq_two.mp hlen
    have h1m : m1 ∈ membersOf db c₀.id := by rw [hl]; exact List.mem_cons_self _ _
    have h2m : m2 ∈ membersOf db c₀.id := by rw [hl]; simp
    have hne : m1.userId ≠ m2.userId := by rw [hl] at hnodup; simpa using hnodup
    rw [hl] at hmf
    rcases List.mem_pair.mp hmf with rfl | rfl
    · exact ⟨m2, (mem_membersOf.mp h2m).1, (mem_membersOf.mp h2m).2,
        fun h => hne (hmuid.trans h.symm)⟩
    · exact ⟨m1, (mem_membersOf.mp h1m).1, (mem_membersOf.mp h1m).2,
        fun h => hne (h.trans hmuid.symm)⟩
  · unfold createPersonalChat findExistingPersonal
    rw [hfind]
    rfl

/-- C10 witness: in a store where user u belongs to the well-formed
personal chat c0, the self-directed creation call returns an existing
chat with another member. -/
theorem createPersonalChat_self_returns_existing_witness :
    ∃ c ∈ dbC10.chats, c.type = "personal" ∧ isMemberOf dbC10 c.id "u" = true ∧
      (∃ m ∈ dbC10.chatMembers, m.chatId = c.id ∧ m.userId ≠ "u") ∧
      createPersonalChat dbC10 "u" "u" "cNew" = (dbC10, Resp.okChatId c.id) :=
  createPersonalChat_self_returns_existing dbC10 "u" "cNew" (by decide)
    (by unfold personalTwoDistinct; decide)

theorem insertChat_some {db db2 : DB} {c : Chat}
    (h : insertChat db c = some db2) :
    db.chats.any (fun x => x.id == c.id) = false
    ∧ db2 = { db with chats := db.chats ++ [c] } := by
  unfold insertChat at h
  split at h
  · cases h
  · next hcond =>
    exact ⟨by simpa using hcond, (Option.some_inj.mp h).symm⟩

theorem insertChatMember_fresh {db : DB} {m : Membership}
    (h : ∀ x ∈ db.chatMembers, ¬(x.chatId = m.chatId ∧ x.userId = m.userId)) :
    insertChatMember db m = some { db with chatMembers := db.chatMembers ++ [m] } := by
  unfold insertChatMember
  rw [if_neg]
  simp only [List.any_eq_true, Bool.and_eq_true, beq_iff_eq, not_exists, not_and]
  intro x hx h1 h2
  exact h x hx ⟨h1, h2⟩

/-- Rows of one chat after a blocked-flag update: the update rewrites
the rows in place, preserving keys. -/
theorem membersOf_setBlocked (db : DB) (c u : String) (b : Bool) (cid : String) :
    membersOf (setBlocked db c u b) cid
      = (membersOf db cid).map
          (fun m => if m.chatId == c && m.userId == u then { m with blocked := b } else m) := by
  unfold membersOf setBlocked
  rw [List.filter_map]
  have hcong : ∀ x ∈ db.chatMembers,
      ((fun m : Membership => m.chatId == cid) ∘
        (fun m : Membership => if m.chatId == c && m.userId == u
          then { m with blocked := b } else m)) x
        = (fun m : Membership => m.chatId == cid) x := by
    intro x _
    by_cases hx : (x.chatId == c && x.userId == u) = true
    · rw [Function.comp_apply, if_pos hx]
    · rw [Function.comp_apply, if_neg hx]
  rw [List.filter_congr hcong]

/-- The blocked-flag update preserves the store invariant. -/
theorem setBlocked_DBInv {db : DB} (hinv : DBInv db) (c u : String) (b : Bool) :
    DBInv (setBlocked db c u b) := by
  refine ⟨hinv.chatsNodup, ?_, ?_⟩
  · intro m hm
    obtain ⟨m₀, hm₀, rfl⟩ := List.mem_map.mp hm
    have hfk := hinv.membersFK m₀ hm₀
    by_cases hc : (m₀.chatId == c && m₀.userId == u) = true
    · rw [if_pos hc]; exact hfk
    · rw [if_neg hc]; exact hfk
  · intro ch hch hty
    obtain ⟨hlen, hnd⟩ := hinv.personalOK ch hch hty
    rw [membersOf_setBlocked]
    refine ⟨by rw [List.length_map]; exact hlen, ?_⟩
    rw [List.map_map]
    have hcomp : (Membership.userId ∘ fun m : Membership =>
        if m.chatId == c && m.userId == u then { m with blocked := b } else m)
        = Membership.userId := by
      funext x
      by_cases hx : (x.chatId == c && x.userId == u) = true
      · rw [Function.comp_apply, if_pos hx]
      · rw [Function.comp_apply, if_neg hx]
    rw [hcomp]
    exact hnd

/-- The invariant ignores the messages table. -/
theorem DBInv_withMessages {db : DB} (hinv : DBInv db) (msgs : List Message) :
    DBInv { db with messages := msgs } :=
  ⟨hinv.chatsNodup, hinv.membersFK, hinv.personalOK⟩

/-- The commit tail of the send-to-user handler preserves the store
invariant (the update keeps keys; the insert only touches messages). -/
theorem sendToUserCommit_DBInv (db : DB) (cid s r mtype content : String)
    (mediaUrl : Option String) (nm : String) (now : Nat)
    (iOk bC bO pA pO : Bool) (hinv : DBInv db) :
    DBInv (sendToUserCommit db cid s r mtype content mediaUrl nm now iOk bC bO pA pO).1 := by
  have h1 : DBInv (setBlocked db cid s false) := setBlocked_DBInv hinv cid s false
  unfold sendToUserCommit
  cases iOk with
  | false => exact h1
  | true =>
    simp only [if_true]
    rcases hins : insertMessage (setBlocked db cid s false)
        ⟨nm, cid, s, mtype, content, mediaUrl, now⟩ with _ | db2
    · exact h1
    · rw [insertMessage_some hins]
      exact DBInv_withMessages h1 _

/-- A freshly created personal chat with two distinct members preserves
the store invariant. -/
theorem createFlow_DBInv (db : DB) (cur other nc : String) (hinv : DBInv db)
    (hne : cur ≠ other) (hnc : nc ∉ db.chats.map Chat.id) :
    DBInv { chats := db.chats ++ [⟨nc, "personal", none⟩],
            chatMembers := db.chatMembers
              ++ [⟨nc, cur, "member", false⟩, ⟨nc, other, "member", false⟩],
            messages := db.messages } := by
  have holdEmpty : membersOf db nc = [] := by
    rw [show membersOf db nc = db.chatMembers.filter (fun m => m.chatId == nc) from rfl]
    rw [List.filter_eq_nil_iff]
    intro m hm hbeq
    exact hnc ((beq_iff_eq.mp hbeq) ▸ hinv.membersFK m hm)
  refine ⟨?_, ?_, ?_⟩
  · rw [List.map_append]
    exact hinv.chatsNodup.append (List.nodup_singleton nc)
      (fun a ha hb => by
        simp only [List.map_cons, List.map_nil, List.mem_singleton] at hb
        exact hnc (hb ▸ ha))
  · intro m hm
    rw [List.map_append, List.mem_append]
    rcases List.mem_append.mp hm with hm | hm
    · exact Or.inl (hinv.membersFK m hm)
    · refine Or.inr ?_
      rcases hm with _ | ⟨_, hm⟩
      · simp
      · rcases hm with _ | ⟨_, hm⟩
        · simp
        · cases hm
  · intro c hc hty
    have hsplit : ∀ cid, membersOf
        { chats := db.chats ++ [⟨nc, "personal", none⟩],
          chatMembers := db.chatMembers
            ++ [⟨nc, cur, "member", false⟩, ⟨nc, other, "member", false⟩],
          messages := db.messages } cid
        = membersOf db cid
          ++ List.filter (fun m => m.chatId == cid)
              [⟨nc, cur, "member", false⟩, ⟨nc, other, "member", false⟩] := by
      intro cid
      unfold membersOf
      exact List.filter_append _ _
    rcases List.mem_append.mp hc with hc | hc
    · have hcid : nc ≠ c.id := fun h =>
        hnc (h ▸ List.mem_map_of_mem Chat.id hc)
      have hnil : List.filter (fun m : Membership => m.chatId == c.id)
          [⟨nc, cur, "member", false⟩, ⟨nc, other, "member", false⟩] = [] := by
        simp [List.filter, beq_eq_false_iff_ne.mpr hcid]
      rw [hsplit, hnil, List.append_nil]
      exact hinv.personalOK c hc hty
    · have hceq : c = ⟨nc, "personal", none⟩ := by
        rcases hc with _ | ⟨_, hc⟩
        · rfl
        · cases hc
      subst hceq
      have hfull : List.filter (fun m : Membership => m.chatId == nc)
          [⟨nc, cur, "member", false⟩, ⟨nc, other, "member", false⟩]
          = [⟨nc, cur, "member", false⟩, ⟨nc, other, "member", false⟩] := by
        simp [List.filter]
      rw [hsplit, holdEmpty, hfull, List.nil_append]
      exact ⟨rfl, by simp [hne]⟩

/-- In the creation sequence after a fresh chat insert, both membership
inserts succeed (the chat id is fresh, the two users are distinct) and
the resulting store satisfies the invariant. -/
theorem createBranch_DBInv (db : DB) (cur other nc : String) (hinv : DBInv db)
    (hne : cur ≠ other) (db1 : DB)
    (hic : insertChat db ⟨nc, "personal", none⟩ = some db1) :
    insertChatMember db1 ⟨nc, cur, "member", false⟩
      = some { db1 with chatMembers := db1.chatMembers ++ [⟨nc, cur, "member", false⟩] }
    ∧ insertChatMember
        { db1 with chatMembers := db1.chatMembers ++ [⟨nc, cur, "member", false⟩] }
        ⟨nc, other, "member", false⟩
      = some { db1 with chatMembers :=
          (db1.chatMembers ++ [⟨nc, cur, "member", false⟩]) ++ [⟨nc, other, "member", false⟩] }
    ∧ DBInv { db1 with chatMembers :=
          (db1.chatMembers ++ [⟨nc, cur, "member", false⟩]) ++ [⟨nc, other, "member", false⟩] } := by
  obtain ⟨hfresh, rfl⟩ := insertChat_some hic
  have hnc : nc ∉ db.chats.map Chat.id := by
    intro hmem
    obtain ⟨c0, hc0, hid⟩ := List.mem_map.mp hmem
    have : db.chats.any (fun x => x.id == nc) = true :=
      List.any_eq_true.mpr ⟨c0, hc0, beq_iff_eq.mpr hid⟩
    rw [hfresh] at this
    cases this
  have hnomem : ∀ x ∈ db.chatMembers, x.chatId ≠ nc := by
    intro x hx h
    exact hnc (h ▸ hinv.membersFK x hx)
  refine ⟨insertChatMember_fresh ?_, insertChatMember_fresh ?_, ?_⟩
  · intro x hx hk
    exact hnomem x hx hk.1
  · intro x hx hk
    rcases List.mem_append.mp hx with hx | hx
    · exact hnomem x hx hk.1
    · rcases hx with _ | ⟨_, hx⟩
      · exact hne hk.2
      · cases hx
  · have := createFlow_DBInv db cur other nc hinv hne hnc
    have hassoc : (db.chatMembers ++ [⟨nc, cur, "member", false⟩])
        ++ [⟨nc, other, "member", false⟩]
        = db.chatMembers ++ [⟨nc, cur, "member", false⟩, ⟨nc, other, "member", false⟩] := by
      rw [List.append_assoc]; rfl
    rw [show ({ db with chats := db.chats ++ [⟨nc, "personal", none⟩] } : DB).chatMembers
        = db.chatMembers from rfl, hassoc]
    exact this

/-- The personal-chat creation handler preserves the store invariant
when the two users are distinct (every failure branch leaves a store
that still satisfies it). -/
theorem createPersonalChat_DBInv (db : DB) (cur other nc : String)
    (hinv : DBInv db) (hne : cur ≠ other) :
    DBInv (createPersonalChat db cur other nc).1 := by
  unfold createPersonalChat
  cases hf : findExistingPersonal db cur other with
  | some cid => exact hinv
  | none =>
    cases hic : insertChat db ⟨nc, "personal", none⟩ with
    | none => exact hinv
    | some db1 =>
      obtain ⟨h1, h2, h3⟩ := createBranch_DBInv db cur other nc hinv hne db1 hic
      simp only [h1, h2]
      exact h3

/-- The send-to-user handler preserves the store invariant (its
self-send guard keeps the two members of a created chat distinct). -/
theorem sendToUser_DBInv (db : DB) (s r mt ct : String) (mu : Option String)
    (nc nm : String) (now : Nat) (iOk : Bool) (hinv : DBInv db) :
    DBInv (sendToUser db s r mt ct mu nc nm now iOk true true true true).1 := by
  by_cases hsr : (s == r) = true
  · unfold sendToUser
    rw [if_pos hsr]
    exact hinv
  · have hne : s ≠ r := fun h => hsr (by simp [h])
    by_cases hrb : recipientBlockCheck db s r = true
    · unfold sendToUser
      rw [if_neg hsr, if_pos hrb]
      exact hinv
    · cases hf : findExistingPersonal db s r with
      | some cid =>
        rw [sendToUser_eq_commit db s r mt ct mu nc nm now iOk true true true true cid
          hne (Bool.not_eq_true _ ▸ hrb) hf]
        exact sendToUserCommit_DBInv db cid s r mt ct mu nm now iOk true true true true hinv
      | none =>
        unfold sendToUser
        rw [if_neg hsr, if_neg hrb]
        cases hic : insertChat db ⟨nc, "personal", none⟩ with
        | none => simp only [hf, hic]; exact hinv
        | some db1 =>
          obtain ⟨h1, h2, h3⟩ := createBranch_DBInv db s r nc hinv hne db1 hic
          simp only [hf, hic, h1, h2]
          exact sendToUserCommit_DBInv _ nc s r mt ct mu nm now iOk true true true true h3

theorem applyOp_DBInv {db : DB} (hinv : DBInv db) {op : StoreOp}
    (hwf : StoreOp.wf op) : DBInv (applyOp db op) := by
  cases op with
  | createPersonal cur other nc => exact createPersonalChat_DBInv db cur other nc hinv hwf
  | sendUser s r mt ct mu nc nm now iOk =>
    exact sendToUser_DBInv db s r mt ct mu nc nm now iOk hinv

theorem runOps_DBInv (ops : List StoreOp) (db : DB) (hinv : DBInv db)
    (hwf : ∀ op ∈ ops, StoreOp.wf op) : DBInv (runOps db ops) := by
  induction ops generalizing db with
  | nil => exact hinv
  | cons op t ih =>
    exact ih (applyOp db op) (applyOp_DBInv hinv (hwf op (List.mem_cons_self _ _)))
      (fun o ho => hwf o (List.mem_cons_of_mem _ ho))

theorem dbInit_DBInv : DBInv dbInit :=
  ⟨List.nodup_nil, fun m hm => absurd hm (List.not_mem_nil m),
    fun c hc => absurd hc (List.not_mem_nil c)⟩

/-- C3 counterexample: a single CreatePersonalChat call with
otherID = currentID on an empty store leaves a personal chat with one
membership row: the second membership insert hits the (chat_id, user_id)
primary key, the handler answers 500, and the chat and first membership
are already committed (no transaction). The claimed invariant fails. -/
theorem personal_chat_two_members_counterexample :
    ¬ personalTwoDistinct (runOps dbInit [StoreOp.createPersonal "u" "u" "c1"]) := by
  unfold personalTwoDistinct
  decide

/-- C3 amended: after any sequence of CreatePersonalChat and SendToUser
operations, including failed ones, in which every CreatePersonalChat
names two distinct users, every personal chat has exactly two
memberships with distinct user identifiers. -/
theorem personal_chats_two_distinct (ops : List StoreOp)
    (hwf : ∀ op ∈ ops, StoreOp.wf op) :
    personalTwoDistinct (runOps dbInit ops) :=
  (runOps_DBInv ops dbInit dbInit_DBInv hwf).personalOK

/-- C3 amended witness: a creation followed by a send to a new user. -/
theorem personal_chats_two_distinct_witness :
    personalTwoDistinct (runOps dbInit
      [StoreOp.createPersonal "a" "b" "c1",
       StoreOp.sendUser "a" "x" "text" "hi" none "c2" "m1" 1 true]) :=
  personal_chats_two_distinct _ (by decide)

/-- C4: a sender whose membership has blocked=true is rejected with 403
and no write happens; after the unblock route clears the flag, the same
send succeeds and returns the persisted message. -/
theorem blocked_send_fails_then_unblock_succeeds
    (db : DB) (cid uid mtype content : String) (mediaUrl : Option String)
    (nm : String) (now : Nat) (iOk bC bO pA pO : Bool) (m : Membership)
    (hm : findMember db cid uid = some m) (hb : m.blocked = true)
    (hfresh : ∀ x ∈ db.messages, x.id ≠ nm) :
    sendToChat db cid uid mtype content mediaUrl nm now iOk bC bO pA pO
        = (db, Resp.err 403 "You are blocked in this chat", [])
    ∧ (sendToChat (unblockRoute db cid uid).1 cid uid mtype content mediaUrl nm now
        true bC bO pA pO).2.1
        = Resp.okMessage ⟨nm, cid, uid, mtype, content, mediaUrl, now⟩ := by
  constructor
  · simp only [sendToChat, hm, hb, if_true]
  · have hdb : (unblockRoute db cid uid).1 = setBlocked db cid uid false := by
      simp only [unblockRoute, hm]
    rw [hdb]
    have hm' : findMember (setBlocked db cid uid false) cid uid
        = some { m with blocked := false } := by
      rw [findMember_setBlocked_self, hm]; rfl
    exact (sendToChat_ok (setBlocked db cid uid false) cid uid mtype content mediaUrl
      nm now bC bO pA pO { m with blocked := false } hm' rfl hfresh).1

/-- C4 witness: in the concrete store dbBlocked, sender A is rejected while
blocked and succeeds after the unblock route. -/
theorem blocked_send_fails_then_unblock_succeeds_witness :
    sendToChat dbBlocked "c" "A" "text" "hi" none "m1" 7 true true true true true
        = (dbBlocked, Resp.err 403 "You are blocked in this chat", [])
    ∧ (sendToChat (unblockRoute dbBlocked "c" "A").1 "c" "A" "text" "hi" none "m1" 7
        true true true true true).2.1
        = Resp.okMessage ⟨"m1", "c", "A", "text", "hi", none, 7⟩ :=
  blocked_send_fails_then_unblock_succeeds dbBlocked "c" "A" "text" "hi" none "m1" 7
    true true true true true ⟨"c", "A", "member", true⟩ (by decide) (by decide)
    (by decide)

/-- C5 counterexample: in dbBlocked, sender A (whose own blocked flag is
true because A had blocked B) sends to B with the message insert
failing. The claim says a failed insert leaves the blocked flag
unchanged; instead the preceding separate UPDATE has already cleared it:
the call fails with 500, no message is inserted, and the flag went from
true to false. -/
theorem send_insert_failure_clears_blocked_counterexample :
    (findMember dbBlocked "c" "A").map Membership.blocked = some true
    ∧ (sendToUser dbBlocked "A" "B" "text" "hi" none "c2" "m1" 9
        false true true true true).2.1 = Resp.err 500 "Failed to send message"
    ∧ (sendToUser dbBlocked "A" "B" "text" "hi" none "c2" "m1" 9
        false true true true true).1.messages = dbBlocked.messages
    ∧ (findMember (sendToUser dbBlocked "A" "B" "text" "hi" none "c2" "m1" 9
        false true true true true).1 "c" "A").map Membership.blocked = some false := by
  exact ⟨by decide, by decide, by decide, by decide⟩

/-- C5 amended: a send that passes its guards performs the blocked=false
UPDATE and the message INSERT as two separate writes, not atomically:
after the UPDATE the sender blocked flag in the target chat is false
regardless of whether the INSERT succeeds or fails, so a failed insert
does not leave the flag unchanged — it leaves it cleared. -/
theorem send_clears_blocked_regardless_of_insert
    (db : DB) (cid uid mtype content : String) (mediaUrl : Option String)
    (nm : String) (now : Nat) (iOk bC bO pA pO : Bool) (m : Membership)
    (hm : findMember db cid uid = some m) (hnb : m.blocked = false)
    (db₂ : DB) (s r mtype₂ content₂ : String) (mediaUrl₂ : Option String)
    (nc₂ nm₂ : String) (now₂ : Nat) (iOk₂ : Bool) (cid₂ : String)
    (hsr : s ≠ r) (hrb : recipientBlockCheck db₂ s r = false)
    (hex : findExistingPersonal db₂ s r = some cid₂) :
    (findMember (sendToChat db cid uid mtype content mediaUrl nm now
        iOk bC bO pA pO).1 cid uid).map Membership.blocked = some false
    ∧ (findMember (sendToUser db₂ s r mtype₂ content₂ mediaUrl₂ nc₂ nm₂ now₂
        iOk₂ bC bO pA pO).1 cid₂ s).map Membership.blocked = some false := by
  constructor
  · have h1 : findMember (sendToChat db cid uid mtype content mediaUrl nm now
        iOk bC bO pA pO).1 cid uid
        = findMember (setBlocked db cid uid false) cid uid := by
      unfold findMember
      rw [sendToChat_chatMembers db cid uid mtype content mediaUrl nm now
        iOk bC bO pA pO m hm hnb]
    rw [h1, findMember_setBlocked_self, hm]
    rfl
  · have h2 : findMember (sendToUser db₂ s r mtype₂ content₂ mediaUrl₂ nc₂ nm₂ now₂
        iOk₂ bC bO pA pO).1 cid₂ s
        = findMember (setBlocked db₂ cid₂ s false) cid₂ s := by
      unfold findMember
      rw [sendToUser_eq_commit db₂ s r mtype₂ content₂ mediaUrl₂ nc₂ nm₂ now₂
        iOk₂ bC bO pA pO cid₂ hsr hrb hex,
        sendToUserCommit_chatMembers]
    obtain ⟨m₂, hm₂⟩ := Option.isSome_iff_exists.mp
      (findMember_isSome_of_isMemberOf (findExistingPersonal_spec hex).1)
    rw [h2, findMember_setBlocked_self, hm₂]
    rfl

/-- C5 amended witness: concrete instantiation on dbC10 (sendToChat by
member u, sendToUser from v to u in chat c0) with failing inserts. -/
theorem send_clears_blocked_regardless_of_insert_witness :
    (findMember (sendToChat dbC10 "c0" "u" "text" "hi" none "m1" 3
        false true true true true).1 "c0" "u").map Membership.blocked = some false
    ∧ (findMember (sendToUser dbC10 "v" "u" "text" "hi" none "c9" "m2" 4
        false true true true true).1 "c0" "v").map Membership.blocked = some false :=
  send_clears_blocked_regardless_of_insert dbC10 "c0" "u" "text" "hi" none "m1" 3
    false true true true true ⟨"c0", "u", "member", false⟩ (by decide) rfl
    dbC10 "v" "u" "text" "hi" none "c9" "m2" 4 false "c0"
    (by decide) (by decide) (by decide)

/-- C7: when the store commit of a send has succeeded, the health of the
broker publish and of the Redis pub/sub publish is invisible to the
caller: for every combination of bus/pubsub flags the response is the
persisted message and the post-state equals the all-healthy post-state
(failures are only logged). This holds for the send-to-chat and the
send-to-user handlers. -/
theorem emit_failures_recovered_locally
    (db : DB) (cid uid mtype content : String) (mediaUrl : Option String)
    (nm : String) (now : Nat) (bC bO pA pO : Bool) (m : Membership)
    (hm : findMember db cid uid = some m) (hnb : m.blocked = false)
    (hfresh : ∀ x ∈ db.messages, x.id ≠ nm)
    (db₂ : DB) (s r mtype₂ content₂ : String) (mediaUrl₂ : Option String)
    (nc₂ nm₂ : String) (now₂ : Nat) (cid₂ : String)
    (hsr : s ≠ r) (hrb : recipientBlockCheck db₂ s r = false)
    (hex : findExistingPersonal db₂ s r = some cid₂)
    (hfresh₂ : ∀ x ∈ db₂.messages, x.id ≠ nm₂) :
    (sendToChat db cid uid mtype content mediaUrl nm now true bC bO pA pO).2.1
        = Resp.okMessage ⟨nm, cid, uid, mtype, content, mediaUrl, now⟩
    ∧ (sendToChat db cid uid mtype content mediaUrl nm now true bC bO pA pO).1
        = (sendToChat db cid uid mtype content mediaUrl nm now true true true true true).1
    ∧ (sendToUser db₂ s r mtype₂ content₂ mediaUrl₂ nc₂ nm₂ now₂ true bC bO pA pO).2.1
        = Resp.okMessage ⟨nm₂, cid₂, s, mtype₂, content₂, mediaUrl₂, now₂⟩
    ∧ (sendToUser db₂ s r mtype₂ content₂ mediaUrl₂ nc₂ nm₂ now₂ true bC bO pA pO).1
        = (sendToUser db₂ s r mtype₂ content₂ mediaUrl₂ nc₂ nm₂ now₂ true true true true true).1 := by
  refine ⟨(sendToChat_ok db cid uid mtype content mediaUrl nm now bC bO pA pO m
      hm hnb hfresh).1, ?_, ?_, ?_⟩
  · rw [(sendToChat_ok db cid uid mtype content mediaUrl nm now bC bO pA pO m
      hm hnb hfresh).2,
      (sendToChat_ok db cid uid mtype content mediaUrl nm now true true true true m
      hm hnb hfresh).2]
  · rw [sendToUser_eq_commit db₂ s r mtype₂ content₂ mediaUrl₂ nc₂ nm₂ now₂
      true bC bO pA pO cid₂ hsr hrb hex]
    exact (sendToUserCommit_ok db₂ cid₂ s r mtype₂ content₂ mediaUrl₂ nm₂ now₂
      bC bO pA pO hfresh₂).1
  · rw [sendToUser_eq_commit db₂ s r mtype₂ content₂ mediaUrl₂ nc₂ nm₂ now₂
      true bC bO pA pO cid₂ hsr hrb hex,
      sendToUser_eq_commit db₂ s r mtype₂ content₂ mediaUrl₂ nc₂ nm₂ now₂
      true true true true true cid₂ hsr hrb hex,
      (sendToUserCommit_ok db₂ cid₂ s r mtype₂ content₂ mediaUrl₂ nm₂ now₂
      bC bO pA pO hfresh₂).2,
      (sendToUserCommit_ok db₂ cid₂ s r mtype₂ content₂ mediaUrl₂ nm₂ now₂
      true true true true hfresh₂).2]

/-- C7 witness: concrete sends on dbC10 with the broker disconnected and
the Redis publish failing still return the persisted message and the
same store state as the all-healthy run. -/
theorem emit_failures_recovered_locally_witness :
    (sendToChat dbC10 "c0" "u" "text" "hi" none "m1" 3 true false false false false).2.1
        = Resp.okMessage ⟨"m1", "c0", "u", "text", "hi", none, 3⟩
    ∧ (sendToChat dbC10 "c0" "u" "text" "hi" none "m1" 3 true false false false false).1
        = (sendToChat dbC10 "c0" "u" "text" "hi" none "m1" 3 true true true true true).1
    ∧ (sendToUser dbC10 "v" "u" "text" "hi" none "c9" "m2" 4 true false false false false).2.1
        = Resp.okMessage ⟨"m2", "c0", "v", "text", "hi", none, 4⟩
    ∧ (sendToUser dbC10 "v" "u" "text" "hi" none "c9" "m2" 4 true false false false false).1
        = (sendToUser dbC10 "v" "u" "text" "hi" none "c9" "m2" 4 true true true true true).1 :=
  emit_failures_recovered_locally dbC10 "c0" "u" "text" "hi" none "m1" 3
    false false false false ⟨"c0", "u", "member", false⟩ (by decide) rfl (by decide)
    dbC10 "v" "u" "text" "hi" none "c9" "m2" 4 "c0"
    (by decide) (by decide) (by decide) (by decide)

theorem getEntry_isSome_iff_hasKey {cl : List (String × List Nat)} {u : String} :
    (getEntry cl u).isSome = true ↔ hasKey cl u = true := by
  induction cl with
  | nil => simp [getEntry, hasKey]
  | cons p ps ih =>
    by_cases hp : (p.1 == u) = true
    · simp [getEntry, hasKey, hp]
    · simp only [getEntry, hasKey, List.any_cons, hp, if_neg hp, Bool.false_or]
      exact ih

theorem getEntry_setEntry (cl : List (String × List Nat)) (u : String)
    (s : List Nat) (v : String) :
    getEntry (setEntry cl u s) v = if u == v then some s else getEntry cl v := by
  induction cl with
  | nil => rfl
  | cons p ps ih =>
    by_cases hpu : (p.1 == u) = true
    · rw [setEntry, if_pos hpu]
      by_cases hpv : (p.1 == v) = true
      · rw [getEntry, if_pos hpv,
          if_pos (beq_iff_eq.mpr ((beq_iff_eq.mp hpu).symm.trans (beq_iff_eq.mp hpv)))]
      · have huv : (u == v) = false := by
          rw [beq_eq_false_iff_ne]
          intro h
          exact hpv (beq_iff_eq.mpr ((beq_iff_eq.mp hpu).trans h))
        rw [getEntry, if_neg hpv, huv, getEntry, if_neg hpv]
        simp
    · rw [setEntry, if_neg hpu]
      by_cases hpv : (p.1 == v) = true
      · have huv : (u == v) = false := by
          rw [beq_eq_false_iff_ne]
          intro h
          exact hpu (beq_iff_eq.mpr ((beq_iff_eq.mp hpv).trans h.symm))
        rw [getEntry, if_pos hpv, huv, getEntry, if_pos hpv]
        simp
      · rw [getEntry, if_neg hpv, ih, getEntry, if_neg hpv]

theorem getEntry_delEntry (cl : List (String × List Nat)) (u v : String) :
    getEntry (delEntry cl u) v = if u == v then none else getEntry cl v := by
  induction cl with
  | nil =>
    by_cases huv : (u == v) = true
    · rw [delEntry, List.filter_nil, if_pos huv]
      rfl
    · rw [delEntry, List.filter_nil, if_neg huv]
  | cons p ps ih =>
    by_cases hpu : (p.1 == u) = true
    · have hdrop : (p.1 != u) = false := by
        simp [bne, hpu]
      rw [delEntry, List.filter_cons, hdrop]
      rw [if_neg Bool.false_ne_true]
      rw [show List.filter (fun p => p.1 != u) ps = delEntry ps u from rfl, ih]
      by_cases huv : (u == v) = true
      · simp only [if_pos huv]
      · simp only [if_neg huv]
        rw [getEntry,
          if_neg (fun hpv : (p.1 == v) = true => huv
            (beq_iff_eq.mpr ((beq_iff_eq.mp hpu).symm.trans (beq_iff_eq.mp hpv))))]
    · have hkeep : (p.1 != u) = true := by
        simp [bne, hpu]
      rw [delEntry, List.filter_cons, hkeep]
      simp only [if_true]
      by_cases hpv : (p.1 == v) = true
      · have huv : (u == v) = false := by
          rw [beq_eq_false_iff_ne]
          intro h
          exact hpu (beq_iff_eq.mpr ((beq_iff_eq.mp hpv).trans h.symm))
        rw [getEntry, if_pos hpv, huv, getEntry, if_pos hpv]
        simp
      · rw [getEntry, if_neg hpv,
          show List.filter (fun p => p.1 != u) ps = delEntry ps u from rfl, ih,
          getEntry, if_neg hpv]

/-- Extensional description of the registry after a connect: the user
gains the socket (if not already present), every other user is
untouched. -/
theorem getEntry_connectClients (cl : List (String × List Nat)) (u : String)
    (ws : Nat) (v : String) :
    getEntry (connectClients cl u ws) v
      = if u == v then
          some (if ws ∈ (getEntry cl u).getD [] then (getEntry cl u).getD []
                else (getEntry cl u).getD [] ++ [ws])
        else getEntry cl v := by
  by_cases hk : hasKey cl u = true
  · simp only [connectClients, if_pos hk, getEntry_setEntry]
  · have hnone : getEntry cl u = none := by
      cases hg : getEntry cl u with
      | none => rfl
      | some s => exact absurd (getEntry_isSome_iff_hasKey.mp (by rw [hg]; rfl)) hk
    simp only [connectClients, Bool.not_eq_true] at *
    rw [if_neg (by rw [hk]; exact Bool.false_ne_true)]
    simp only [getEntry_setEntry, hnone]
    by_cases huv : (u == v) = true
    · simp only [if_pos huv]
      simp
    · simp only [if_neg huv]

/-- The connection handler preserves the hub invariant. -/
theorem wsConnect_HubInv {st : HubState} (hinv : HubInv st) (u : String) (ws : Nat) :
    HubInv (wsConnect st u ws) := by
  refine ⟨?_, ?_, ?_⟩
  · show (if u ∈ st.subs then st.subs else u :: st.subs).Nodup
    by_cases hu : u ∈ st.subs
    · rw [if_pos hu]
      exact hinv.subsNodup
    · rw [if_neg hu]
      exact hinv.subsNodup.cons hu
  · intro v s hv
    rw [show (wsConnect st u ws).clients = connectClients st.clients u ws from rfl,
      getEntry_connectClients] at hv
    by_cases huv : (u == v) = true
    · rw [if_pos huv] at hv
      obtain rfl := Option.some_inj.mp hv
      by_cases hw : ws ∈ (getEntry st.clients u).getD []
      · rw [if_pos hw]
        exact List.ne_nil_of_mem hw
      · rw [if_neg hw]
        simp
    · rw [if_neg huv] at hv
      exact hinv.entriesNonempty v s hv
  · intro v
    show v ∈ (if u ∈ st.subs then st.subs else u :: st.subs) ↔ _
    rw [show (wsConnect st u ws).clients = connectClients st.clients u ws from rfl,
      getEntry_connectClients]
    by_cases huv : (u == v) = true
    · obtain rfl := beq_iff_eq.mp huv
      rw [if_pos huv]
      refine ⟨fun _ => rfl, fun _ => ?_⟩
      by_cases hu : u ∈ st.subs
      · rw [if_pos hu]
        exact hu
      · rw [if_neg hu]
        exact List.mem_cons_self _ _
    · have hne : u ≠ v := fun h => huv (beq_iff_eq.mpr h)
      rw [if_neg huv]
      have hl : v ∈ (if u ∈ st.subs then st.subs else u :: st.subs) ↔ v ∈ st.subs := by
        by_cases hu : u ∈ st.subs
        · rw [if_pos hu]
        · rw [if_neg hu]
          constructor
          · intro h
            rcases h with _ | ⟨_, h⟩
            · exact absurd rfl hne
            · exact h
          · exact List.mem_cons_of_mem _
      rw [hl]
      exact hinv.subsIff v

/-- The close handler preserves the hub invariant. -/
theorem wsClose_HubInv {st : HubState} (hinv : HubInv st) (u : String) (ws : Nat) :
    HubInv (wsClose st u ws) := by
  unfold wsClose
  rcases hget : getEntry st.clients u with _ | s
  · exact hinv
  · dsimp only
    by_cases hempty : ((s.erase ws).isEmpty) = true
    · rw [if_pos hempty]
      refine ⟨hinv.subsNodup.erase u, ?_, ?_⟩
      · intro v s1 hv
        rw [getEntry_delEntry] at hv
        by_cases huv : (u == v) = true
        · rw [if_pos huv] at hv
          cases hv
        · rw [if_neg huv, getEntry_setEntry, if_neg huv] at hv
          exact hinv.entriesNonempty v s1 hv
      · intro v
        rw [getEntry_delEntry]
        by_cases huv : (u == v) = true
        · obtain rfl := beq_iff_eq.mp huv
          rw [if_pos huv]
          constructor
          · intro hmem
            exact absurd rfl (hinv.subsNodup.mem_erase_iff.mp hmem).1
          · intro h
            cases h
        · have hne : u ≠ v := fun h => huv (beq_iff_eq.mpr h)
          rw [if_neg huv, getEntry_setEntry, if_neg huv,
            hinv.subsNodup.mem_erase_iff]
          constructor
          · intro h
            exact (hinv.subsIff v).mp h.2
          · intro h
            exact ⟨fun hvu => hne hvu.symm, (hinv.subsIff v).mpr h⟩
    · rw [if_neg hempty]
      refine ⟨hinv.subsNodup, ?_, ?_⟩
      · intro v s1 hv
        rw [getEntry_setEntry] at hv
        by_cases huv : (u == v) = true
        · rw [if_pos huv] at hv
          obtain rfl := Option.some_inj.mp hv
          intro h
          rw [h] at hempty
          exact hempty rfl
        · rw [if_neg huv] at hv
          exact hinv.entriesNonempty v s1 hv
      · intro v
        rw [getEntry_setEntry]
        by_cases huv : (u == v) = true
        · obtain rfl := beq_iff_eq.mp huv
          rw [if_pos huv]
          refine ⟨fun _ => rfl, fun _ => ?_⟩
          exact (hinv.subsIff u).mpr (by rw [hget]; rfl)
        · rw [if_neg huv]
          exact hinv.subsIff v

theorem hubStep_HubInv {st : HubState} (hinv : HubInv st) (op : HubOp) :
    HubInv (hubStep st op) := by
  cases op with
  | connect u ws => exact wsConnect_HubInv hinv u ws
  | close u ws => exact wsClose_HubInv hinv u ws

theorem HubState.init_HubInv : HubInv HubState.init := by
  refine ⟨List.nodup_nil, ?_, ?_⟩
  · intro v s h
    cases h
  · intro u
    refine ⟨fun h => absurd h (List.not_mem_nil u), fun h => ?_⟩
    cases h

theorem runHub_HubInv (ops : List HubOp) : HubInv (runHub ops) := by
  suffices H : ∀ st, HubInv st → HubInv (ops.foldl hubStep st) from
    H HubState.init HubState.init_HubInv
  induction ops with
  | nil => exact fun st h => h
  | cons op t ih => exact fun st h => ih (hubStep st op) (hubStep_HubInv h op)

/-- C9: after any sequence of connects and closes, a node holds exactly
one subscription for a user while it has at least one live session for
that user, and none otherwise: the subscription is established on the
first local connect, never duplicated by further sessions, and released
when the last local session closes. -/
theorem hub_one_subscription_per_connected_user (ops : List HubOp) (u : String) :
    (runHub ops).subs.count u
      = (if sessionsOf (runHub ops) u = [] then 0 else 1) := by
  have hinv : HubInv (runHub ops) := runHub_HubInv ops
  rcases hget : getEntry (runHub ops).clients u with _ | s
  · have hnot : u ∉ (runHub ops).subs := by
      intro hmem
      have := (hinv.subsIff u).mp hmem
      rw [hget] at this
      cases this
    rw [List.count_eq_zero.mpr hnot, sessionsOf, hget]
    simp
  · have hmem : u ∈ (runHub ops).subs :=
      (hinv.subsIff u).mpr (by rw [hget]; rfl)
    have hsne : s ≠ [] := hinv.entriesNonempty u s hget
    rw [List.count_eq_one_of_mem hinv.subsNodup hmem, sessionsOf, hget]
    simp [hsne]

end ChatApp
